import Mathlib

/-!
# Verification of the actuary-bot constitutional gate engine and provenance chain

Shallow embedding of:
* `src/constitutional/consent-protocol.js` — consent-anchor derivation/validation
* `src/constitutional/yamas-gates.js` — the five gates and the composite orchestrator
* `shared/kaitiaki/middleware.js` — the provenance sealer (transport layer)
* `shared/kaitiaki/chain.js` — chain-of-custody linking

Modelling conventions:
* JavaScript numbers are modelled as exact rationals (`ℚ`); every arithmetic
  expression appearing in the source is reproduced literally over `ℚ`.
* Absent (`undefined`) fields are modelled as `Option.none`; JavaScript string
  truthiness (`!x` is true for `undefined` and `""`) is `jsTruthyStr`.
* `crypto.createHash('sha256')` is implemented bit-faithfully below over byte
  lists (naturals < 256), with `%`/bitwise operations on `ℕ`.
* `String.prototype.toLowerCase` is modelled per-character with `Char.toLower`
  (agrees with JS on ASCII); `String.prototype.trim` with the ECMAScript
  whitespace set over the character list.
-/

namespace ActuaryBot

/-- JS string truthiness for a possibly-absent string: `undefined` and `""`
are falsy, every other string is truthy. -/
def jsTruthyStr : Option String → Bool
  | none => false
  | some s => s ≠ ""

/-- `Math.round` for the non-negative values used here: round half up. -/
def jsRound (q : ℚ) : ℤ := ⌊q + 1/2⌋

/-! ## SHA-256 (bit-faithful, over byte lists) -/

/-- Word size modulus 2^32. -/
def M32 : ℕ := 4294967296

def add32 (a b : ℕ) : ℕ := (a + b) % M32

/-- Right rotation of a 32-bit word (input assumed `< 2^32`). -/
def rotr32 (n x : ℕ) : ℕ := x / 2 ^ n + x % 2 ^ n * 2 ^ (32 - n)

def shr32 (n x : ℕ) : ℕ := x / 2 ^ n

def not32 (x : ℕ) : ℕ := Nat.xor x 4294967295

def ssig0 (x : ℕ) : ℕ := Nat.xor (Nat.xor (rotr32 7 x) (rotr32 18 x)) (shr32 3 x)

def ssig1 (x : ℕ) : ℕ := Nat.xor (Nat.xor (rotr32 17 x) (rotr32 19 x)) (shr32 10 x)

def bsig0 (x : ℕ) : ℕ := Nat.xor (Nat.xor (rotr32 2 x) (rotr32 13 x)) (rotr32 22 x)

def bsig1 (x : ℕ) : ℕ := Nat.xor (Nat.xor (rotr32 6 x) (rotr32 11 x)) (rotr32 25 x)

def chFn (e f g : ℕ) : ℕ := Nat.xor (Nat.land e f) (Nat.land (not32 e) g)

def majFn (a b c : ℕ) : ℕ :=
  Nat.xor (Nat.xor (Nat.land a b) (Nat.land a c)) (Nat.land b c)

def sha256K : List ℕ :=
  [1116352408, 1899447441, 3049323471, 3921009573, 961987163, 1508970993,
   2453635748, 2870763221, 3624381080, 310598401, 607225278, 1426881987,
   1925078388, 2162078206, 2614888103, 3248222580, 3835390401, 4022224774,
   264347078, 604807628, 770255983, 1249150122, 1555081692, 1996064986,
   2554220882, 2821834349, 2952996808, 3210313671, 3336571891, 3584528711,
   113926993, 338241895, 666307205, 773529912, 1294757372, 1396182291,
   1695183700, 1986661051, 2177026350, 2456956037, 2730485921, 2820302411,
   3259730800, 3345764771, 3516065817, 3600352804, 4094571909, 275423344,
   430227734, 506948616, 659060556, 883997877, 958139571, 1322822218,
   1537002063, 1747873779, 1955562222, 2024104815, 2227730452, 2361852424,
   2428436474, 2756734187, 3204031479, 3329325298]

def sha256H0 : List ℕ :=
  [1779033703, 3144134277, 1013904242, 2773480762,
   1359893119, 2600822924, 528734635, 1541459225]

/-- Message padding: `0x80`, zeros to 56 mod 64, 8-byte big-endian bit length. -/
def sha256Pad (msg : List ℕ) : List ℕ :=
  let len := msg.length
  let bitLen := 8 * len
  let z := (119 - len % 64) % 64
  msg ++ 0x80 :: List.replicate z 0 ++
    [bitLen / 2 ^ 56 % 256, bitLen / 2 ^ 48 % 256, bitLen / 2 ^ 40 % 256,
     bitLen / 2 ^ 32 % 256, bitLen / 2 ^ 24 % 256, bitLen / 2 ^ 16 % 256,
     bitLen / 2 ^ 8 % 256, bitLen % 256]

/-- Split a byte list into 64-byte chunks (fuel-driven structural recursion;
`fuel = l.length` always suffices since each step drops 64 > 0 elements). -/
def chunks64Fuel : ℕ → List ℕ → List (List ℕ)
  | _, [] => []
  | 0, _ => []
  | fuel + 1, a :: l => ((a :: l).take 64) :: chunks64Fuel fuel ((a :: l).drop 64)

/-- Split a byte list into 64-byte chunks. -/
def chunks64 (l : List ℕ) : List (List ℕ) := chunks64Fuel l.length l

/-- Big-endian 32-bit word from the first four bytes of a list. -/
def wordOfBytes (l : List ℕ) : ℕ :=
  l.getD 0 0 * 2 ^ 24 + l.getD 1 0 * 2 ^ 16 + l.getD 2 0 * 2 ^ 8 + l.getD 3 0

/-- Message-schedule extension, accumulating words in reverse order. -/
def extendSched : ℕ → List ℕ → List ℕ
  | 0, acc => acc
  | n + 1, acc =>
      let w := add32 (add32 (ssig1 (acc.getD 1 0)) (acc.getD 6 0))
                     (add32 (ssig0 (acc.getD 14 0)) (acc.getD 15 0))
      extendSched n (w :: acc)

def compressStep (st : List ℕ) (kw : ℕ × ℕ) : List ℕ :=
  match st with
  | [a, b, c, d, e, f, g, h] =>
      let t1 := add32 (add32 h (bsig1 e)) (add32 (chFn e f g) (add32 kw.1 kw.2))
      let t2 := add32 (bsig0 a) (majFn a b c)
      [add32 t1 t2, a, b, c, add32 d t1, e, f, g]
  | other => other

def compressChunk (h : List ℕ) (chunk : List ℕ) : List ℕ :=
  let w16 := (List.range 16).map fun i => wordOfBytes (chunk.drop (4 * i))
  let w := (extendSched 48 w16.reverse).reverse
  let st := (sha256K.zip w).foldl compressStep h
  (h.zip st).map fun p => add32 p.1 p.2

def word4BytesBE (w : ℕ) : List ℕ :=
  [w / 2 ^ 24 % 256, w / 2 ^ 16 % 256, w / 2 ^ 8 % 256, w % 256]

/-- SHA-256 of a byte list, as a 32-byte list. -/
def sha256Bytes (msg : List ℕ) : List ℕ :=
  (((chunks64 (sha256Pad msg)).foldl compressChunk sha256H0).map word4BytesBE).flatten

/-! ## Hex and UTF-8 helpers -/

/-- Lowercase hex digit for a nibble. -/
def nibbleChar (n : ℕ) : Char :=
  if n < 10 then Char.ofNat (48 + n) else Char.ofNat (87 + n)

def byteHex (b : ℕ) : List Char := [nibbleChar (b / 16), nibbleChar (b % 16)]

def bytesToHexL (bs : List ℕ) : List Char := (bs.map byteHex).flatten

/-- UTF-8 encoding of one character. -/
def utf8Char (c : Char) : List ℕ :=
  let n := c.toNat
  if n < 0x80 then [n]
  else if n < 0x800 then [0xC0 + n / 64, 0x80 + n % 64]
  else if n < 0x10000 then
    [0xE0 + n / 4096, 0x80 + n / 64 % 64, 0x80 + n % 64]
  else
    [0xF0 + n / 262144, 0x80 + n / 4096 % 64, 0x80 + n / 64 % 64, 0x80 + n % 64]

def utf8Encode (s : String) : List ℕ := (s.data.map utf8Char).flatten

/-- `createHash('sha256').update(string).digest('hex')` (UTF-8 input). -/
def sha256HexOfString (s : String) : String :=
  ⟨bytesToHexL (sha256Bytes (utf8Encode s))⟩

/-! ## JS string primitives -/

/-- ECMAScript WhiteSpace / LineTerminator set used by `String.prototype.trim`. -/
def isJsSpace (c : Char) : Bool :=
  c.toNat = 0x9 ∨ c.toNat = 0xA ∨ c.toNat = 0xB ∨ c.toNat = 0xC ∨
  c.toNat = 0xD ∨ c.toNat = 0x20 ∨ c.toNat = 0xA0 ∨ c.toNat = 0x1680 ∨
  (0x2000 ≤ c.toNat ∧ c.toNat ≤ 0x200A) ∨ c.toNat = 0x2028 ∨
  c.toNat = 0x2029 ∨ c.toNat = 0x202F ∨ c.toNat = 0x205F ∨
  c.toNat = 0x3000 ∨ c.toNat = 0xFEFF

/-- `String.prototype.trim` over the character list. -/
def trimL (l : List Char) : List Char :=
  ((l.dropWhile isJsSpace).reverse.dropWhile isJsSpace).reverse

/-- `x.trim().toLowerCase()` — the normalization applied to `cohort` and
`scope` in `generateConsentRecordId`. -/
def normCS (s : String) : List Char := (trimL s.data).map Char.toLower

/-- `String.prototype.startsWith` (JS semantics; ASCII prefixes here). -/
def jsStartsWith (s pre : String) : Bool := pre.data.isPrefixOf s.data

/-! ## JSON string escaping (ECMA-262 `QuoteJSONString`) -/

/-- Escape one character as `JSON.stringify` does inside a quoted string. -/
def escChar (c : Char) : List Char :=
  if c = '"' then ['\\', '"']
  else if c = '\\' then ['\\', '\\']
  else if c.toNat = 8 then ['\\', 'b']
  else if c.toNat = 9 then ['\\', 't']
  else if c.toNat = 10 then ['\\', 'n']
  else if c.toNat = 12 then ['\\', 'f']
  else if c.toNat = 13 then ['\\', 'r']
  else if c.toNat < 32 then
    ['\\', 'u', '0', '0', nibbleChar (c.toNat / 16), nibbleChar (c.toNat % 16)]
  else [c]

/-- Escape a whole character list. -/
def escL (l : List Char) : List Char := (l.map escChar).flatten

/-! ## `src/constitutional/consent-protocol.js` -/

/-- The canonical serialization
`JSON.stringify(\x7bcohort, scope, clinician_id\x7d)` over already-normalized
character lists, in the object-literal insertion order of the source. -/
def canonL (nc ns ncl : List Char) : List Char :=
  "\x7b\"cohort\":\"".data ++ escL nc ++
  "\",\"scope\":\"".data ++ escL ns ++
  "\",\"clinician_id\":\"".data ++ escL ncl ++ "\"\x7d".data

/-- `generateConsentRecordId(\x7bcohort, scope, clinician_id\x7d)`:
throws (`Except.error`) when any argument is falsy, otherwise normalizes
(`trim().toLowerCase()` on cohort/scope, `trim()` on clinician_id),
serializes canonically, hashes with SHA-256 and keeps `CR-` plus the first
32 hex characters. -/
def generateConsentRecordId (cohort scope clinician_id : Option String) :
    Except String String :=
  if jsTruthyStr cohort && jsTruthyStr scope && jsTruthyStr clinician_id then
    let canonical : String :=
      ⟨canonL (normCS (cohort.getD "")) (normCS (scope.getD ""))
        (trimL (clinician_id.getD "").data)⟩
    Except.ok ("CR-" ++ ⟨(sha256HexOfString canonical).data.take 32⟩)
  else
    Except.error "CONSENT_ERROR: cohort, scope, and clinician_id are all required"

/-- Result record of `validateConsentRecord`. -/
structure ConsentValidation where
  valid : Bool
  reason : String
  deriving Repr, DecidableEq

/-- `validateConsentRecord(consent_record_id, \x7bcohort, scope,
clinician_id\x7d)`: fails closed on a missing/non-string id or a missing
`CR-` prefix, then recomputes the id and requires exact equality. -/
def validateConsentRecord (consent_record_id : Option String)
    (cohort scope clinician_id : Option String) : ConsentValidation :=
  match consent_record_id with
  | none => ⟨false, "CONSENT_INVALID: consent_record_id is missing or not a string"⟩
  | some id =>
    if id = "" then
      ⟨false, "CONSENT_INVALID: consent_record_id is missing or not a string"⟩
    else if ¬ jsStartsWith id "CR-" then
      ⟨false, "CONSENT_INVALID: consent_record_id must begin with CR-"⟩
    else
      match generateConsentRecordId cohort scope clinician_id with
      | Except.error msg => ⟨false, "CONSENT_INVALID: " ++ msg⟩
      | Except.ok expected =>
        if id ≠ expected then
          ⟨false,
           "CONSENT_INVALID: consent_record_id does not match cohort+scope+clinician_id hash"⟩
        else ⟨true, "CONSENT_VALID"⟩

/-! ## `src/constitutional/yamas-gates.js` -/

/-- `Number.prototype.toFixed(3)` for the non-negative rationals that reach
it in `satyaGate` (round half up, three fractional digits). -/
def jsToFixed3 (q : ℚ) : String :=
  let n := jsRound (q * 1000)
  let f := n % 1000
  let frac := if f < 10 then "00" ++ toString f
              else if f < 100 then "0" ++ toString f
              else toString f
  toString (n / 1000) ++ "." ++ frac

/-- The merged request context handed to the gates. Absent (`undefined`)
fields are `none`. -/
structure GateCtx where
  equity_flag : Option String := none
  population_size : Option ℚ := none
  patient_facing : Option Bool := none
  assessment_type : Option String := none
  confidence : Option ℚ := none
  data_quality : Option String := none
  model_version : Option String := none
  consent_record_id : Option String := none
  cohort : Option String := none
  scope : Option String := none
  clinician_id : Option String := none
  regulatory_jurisdiction : Option String := none
  model_count : Option ℚ := none
  dissent_flag : Option Bool := none
  deriving Repr

/-- Per-gate verdict `\x7bpass, score, reason\x7d`. -/
structure GateResult where
  pass : Bool
  score : ℚ
  reason : String
  deriving Repr, DecidableEq

def FORBIDDEN_TYPES : List String :=
  ["genetic_exclusion", "racial_profiling", "disability_penalty"]

/-- Gate 1 — AHIMSA (non-harm). -/
def ahimsaGate (ctx : GateCtx) : GateResult :=
  let population_size := ctx.population_size.getD 0
  let patient_facing := ctx.patient_facing.getD false
  let assessment_type := ctx.assessment_type.getD ""
  if FORBIDDEN_TYPES.contains assessment_type then
    ⟨false, 0,
     "AHIMSA_VIOLATION: assessment_type \x27" ++ assessment_type ++ "\x27 is prohibited"⟩
  else if population_size > 10000 ∧ ¬ jsTruthyStr ctx.equity_flag then
    ⟨false, 0, "AHIMSA_VIOLATION: large-population assessment requires equity_flag"⟩
  else
    ⟨true, if patient_facing then 0.80 else 0.95, "AHIMSA_PASS"⟩

/-- Gate 2 — SATYA (truthfulness). `confidence` defaults to `0`,
`data_quality` to `"unknown"`. -/
def satyaGate (ctx : GateCtx) : GateResult :=
  let confidence := ctx.confidence.getD 0
  let data_quality := ctx.data_quality.getD "unknown"
  if confidence < 0 ∨ confidence > 1 then
    ⟨false, 0, "SATYA_VIOLATION: confidence must be a number in [0, 1]"⟩
  else if confidence < 0.60 then
    ⟨false, 0,
     "SATYA_VIOLATION: confidence " ++ jsToFixed3 confidence ++ " < minimum 0.60"⟩
  else if data_quality = "unknown" ∨ data_quality = "poor" then
    ⟨false, 0,
     "SATYA_VIOLATION: data_quality \x27" ++ data_quality ++
       "\x27 is insufficient for actuarial assessment"⟩
  else if ¬ jsTruthyStr ctx.model_version then
    ⟨false, 0,
     "SATYA_VIOLATION: model_version must be declared (prevents hidden model drift)"⟩
  else
    ⟨true, min 1.0 (confidence * 1.1), "SATYA_PASS"⟩

/-- Gate 3 — ASTEYA (consent). -/
def asteyaGate (ctx : GateCtx) : GateResult :=
  if ¬ jsTruthyStr ctx.consent_record_id then
    ⟨false, 0,
     "ASTEYA_VIOLATION: consent_record_id is required — no analysis without consent"⟩
  else
    let validation :=
      validateConsentRecord ctx.consent_record_id ctx.cohort ctx.scope ctx.clinician_id
    if ¬ validation.valid then
      ⟨false, 0, "ASTEYA_VIOLATION: " ++ validation.reason⟩
    else
      ⟨true, 0.95, "ASTEYA_PASS"⟩

def VALIDATED_SCOPES : List String :=
  ["life_insurance_pricing", "health_insurance_risk", "reinsurance_modelling",
   "population_mortality", "drug_discovery_integration", "dr_bot_integration"]

/-- Gate 4 — BRAHMACHARYA (domain boundary). -/
def brahmaacharyaGate (ctx : GateCtx) : GateResult :=
  if ¬ jsTruthyStr ctx.scope then
    ⟨false, 0, "BRAHMACHARYA_VIOLATION: scope is required"⟩
  else if ¬ (VALIDATED_SCOPES.contains (ctx.scope.getD "")) then
    ⟨false, 0,
     "BRAHMACHARYA_VIOLATION: scope \x27" ++ ctx.scope.getD "" ++
       "\x27 is not in validated scope list. Validated scopes: " ++
       String.intercalate ", " VALIDATED_SCOPES⟩
  else
    ⟨true, if jsTruthyStr ctx.regulatory_jurisdiction then 0.90 else 0.70,
     "BRAHMACHARYA_PASS"⟩

/-- Gate 5 — APARIGRAHA (model diversity). `model_count` defaults to `1`. -/
def aparigrahaGate (ctx : GateCtx) : GateResult :=
  let model_count := ctx.model_count.getD 1
  let dissent_flag := ctx.dissent_flag.getD false
  if model_count < 2 ∧ ¬ dissent_flag then
    ⟨false, 0,
     "APARIGRAHA_VIOLATION: assessments must use ≥2 models or carry explicit dissent_flag=true"⟩
  else
    ⟨true, if model_count ≥ 3 then 0.95 else if dissent_flag then 0.80 else 0.72,
     "APARIGRAHA_PASS"⟩

/-- Per-gate summary block of the composite verdict. -/
structure YamasEntry where
  score : ℚ
  pass : Bool
  reason : String
  deriving Repr, DecidableEq

structure YamasOut where
  ahimsa : YamasEntry
  satya : YamasEntry
  asteya : YamasEntry
  brahmacharya : YamasEntry
  aparigraha : YamasEntry
  deriving Repr, DecidableEq

/-- `receipt_fields` of the verdict (`gate_timestamp`, a wall-clock reading,
is outside the pure model and omitted). -/
structure ReceiptFields where
  constitutional_score : ℚ
  brahmacharya_auto_reject : Bool
  deriving Repr, DecidableEq

/-- The structured verdict returned by `runAllGates`. -/
structure Verdict where
  pass : Bool
  constitutional_score : ℚ
  yamas : YamasOut
  blocked_by : List String
  receipt_fields : ReceiptFields
  deriving Repr, DecidableEq

/-- `runAllGates(ctx)` — runs the five gates, collects `blocked_by` in the
fixed entry order, applies the brahmacharya hard veto, rounds the composite
to three decimals, and passes only on no blocks and composite ≥ 0.60. -/
def runAllGates (ctx : GateCtx) : Verdict :=
  let ahimsa := ahimsaGate ctx
  let satya := satyaGate ctx
  let asteya := asteyaGate ctx
  let brahmacharya := brahmaacharyaGate ctx
  let aparigraha := aparigrahaGate ctx
  let scores : List (String × GateResult) :=
    [("ahimsa", ahimsa), ("satya", satya), ("asteya", asteya),
     ("brahmacharya", brahmacharya), ("aparigraha", aparigraha)]
  let blocked_by :=
    (scores.filter fun p => ¬ p.2.pass).map fun p => p.1 ++ ": " ++ p.2.reason
  let brahmaAuto := !brahmacharya.pass
  let constitutional_score : ℚ :=
    if brahmaAuto then 0 else
      0.25 * ahimsa.score + 0.25 * satya.score + 0.15 * asteya.score +
      0.20 * brahmacharya.score + 0.15 * aparigraha.score
  let pass := blocked_by.isEmpty && constitutional_score ≥ 0.60
  { pass := pass
    constitutional_score := (jsRound (constitutional_score * 1000) : ℚ) / 1000
    yamas :=
      { ahimsa := ⟨ahimsa.score, ahimsa.pass, ahimsa.reason⟩
        satya := ⟨satya.score, satya.pass, satya.reason⟩
        asteya := ⟨asteya.score, asteya.pass, asteya.reason⟩
        brahmacharya := ⟨brahmacharya.score, brahmacharya.pass, brahmacharya.reason⟩
        aparigraha := ⟨aparigraha.score, aparigraha.pass, aparigraha.reason⟩ }
    blocked_by := blocked_by
    receipt_fields :=
      { constitutional_score := constitutional_score
        brahmacharya_auto_reject := brahmaAuto } }

/-! ## JSON values (payload shapes at the transport boundary) -/

/-- JSON value as seen by `JSON.stringify` / `res.json`. -/
inductive Json where
  | null
  | bool (b : Bool)
  | num (q : ℚ)
  | str (s : String)
  | arr (elems : List Json)
  | obj (fields : List (String × Json))

/-- `JSON.stringify`. Strings are escaped with `escL`; numbers are rendered
exactly for integers (the only numeric payloads exercised here). -/
def jsonStringify : Json → String
  | .null => "null"
  | .bool true => "true"
  | .bool false => "false"
  | .num q => if q.den = 1 then toString q.num else toString q
  | .str s => "\"" ++ ⟨escL s.data⟩ ++ "\""
  | .arr l => "[" ++ String.intercalate "," (l.attach.map fun e => jsonStringify e.1) ++ "]"
  | .obj fs =>
      "\x7b" ++
      String.intercalate ","
        (fs.attach.map fun p => "\"" ++ ⟨escL p.1.1.data⟩ ++ "\":" ++ jsonStringify p.1.2) ++
      "\x7d"
  decreasing_by
  all_goals simp_wf
  · have := List.sizeOf_lt_of_mem e.2
    omega
  · have h1 := List.sizeOf_lt_of_mem p.2
    have h2 : sizeOf p.1.2 < sizeOf p.1 := by
      obtain ⟨x, hx⟩ := p
      obtain ⟨k, v⟩ := x
      simp
    omega

/-! ## `shared/kaitiaki/middleware.js` -/

/-- `hexToBigInt`: `BigInt('0x' + hex.slice(0, 16))`. -/
def hexDigitVal (c : Char) : ℕ :=
  if 48 ≤ c.toNat ∧ c.toNat ≤ 57 then c.toNat - 48
  else if 97 ≤ c.toNat ∧ c.toNat ≤ 102 then c.toNat - 87
  else if 65 ≤ c.toNat ∧ c.toNat ≤ 70 then c.toNat - 55
  else 0

def hexValL (l : List Char) : ℕ := l.foldl (fun acc c => 16 * acc + hexDigitVal c) 0

def hexToBigInt (hex : String) : ℕ := hexValL (hex.data.take 16)

/-- `x.toString(16)` digits for `x > 0` (fuel-driven; `fuel = x` suffices). -/
def natToHexCore : ℕ → ℕ → List Char
  | 0, _ => []
  | _ + 1, 0 => []
  | fuel + 1, n + 1 => natToHexCore fuel ((n + 1) / 16) ++ [nibbleChar ((n + 1) % 16)]

/-- `x.toString(16)` (lowercase hex, no leading zeros, `"0"` for zero). -/
def natToHexL (n : ℕ) : List Char := if n = 0 then ['0'] else natToHexCore n n

/-- `.padStart(32, '0')`. -/
def padStart32 (l : List Char) : List Char := List.replicate (32 - l.length) '0' ++ l

/-- `Buffer.from(hexString, 'hex')`: consume hex-digit pairs from the front. -/
def hexToBytesL : List Char → List ℕ
  | c1 :: c2 :: rest => (16 * hexDigitVal c1 + hexDigitVal c2) :: hexToBytesL rest
  | _ => []

/-- The fixed modulus `P = 0xffffffffffffffffffffffffffffff61 = 2^128 - 159`. -/
def arnoldP : ℕ := 0xffffffffffffffffffffffffffffff61

/-- `arnoldTransform(aHash, bHash)` — the chain mixing transform of the
sealer: truncate both hex states to their first 16 hex characters as
integers, mix mod `P`, re-encode as two 32-hex-char fields, and SHA-256 the
resulting bytes. -/
def arnoldTransform (aHash bHash : String) : String :=
  let x := (2 * hexToBigInt aHash + hexToBigInt bHash) % arnoldP
  let y := (hexToBigInt aHash + hexToBigInt bHash) % arnoldP
  let combined := padStart32 (natToHexL x) ++ padStart32 (natToHexL y)
  ⟨bytesToHexL (sha256Bytes (hexToBytesL combined))⟩

/-- Mutable module-level chain state of the middleware. -/
structure ChainState where
  chainPosition : ℕ
  prevState : String
  prevPrevState : String
  deriving Repr, DecidableEq

/-- The `posc` block of a receipt. -/
structure Posc where
  state : String
  previous_state : String
  chain_position : ℕ
  genesis_hash : String
  deriving Repr, DecidableEq

structure HelixLayer where
  artifact_hash : String
  signature : String
  public_key : String
  deriving Repr, DecidableEq

structure PoscLink where
  state : String
  previous_state : String
  chain_position : ℕ
  deriving Repr, DecidableEq

structure SevenSeals where
  artifact_hash : String
  drand_beacon : String
  geonet_entropy : String
  sadi_fingerprint : String
  posc_link : PoscLink
  deriving Repr, DecidableEq

structure Layers where
  helix : HelixLayer
  posc : Posc
  seals : SevenSeals
  deriving Repr, DecidableEq

/-- Full Kaitiaki receipt emitted by `sealTransport`. -/
structure FullReceipt where
  receipt_id : String
  version : String
  timestamp : String
  public_key : String
  layers : Layers
  sovereign : String
  protocol : String
  deriving Repr, DecidableEq

/-- Per-call inputs of one seal: the random receipt-id suffix
(`randomBytes(2).toString('hex')`), the payload, the domain string, the
`Date.now()` reading and its `toISOString()` rendering — randomness and the
clock are external to the pure model and threaded in as data. -/
structure SealIn where
  rid : String
  payload : Json
  domain : String
  ts : ℕ
  iso : String

/-- `sealTransport(payload, domain)` as an explicit state transition.
`sign` stands for `nacl.sign.detached(·, secretKey)` (external library),
`publicKey`/`genesisHash` for the module constants. Returns the receipt and
the advanced chain state. -/
def sealTransport (sign : String → String) (publicKey genesisHash : String)
    (inp : SealIn) (st : ChainState) : FullReceipt × ChainState :=
  let ts := inp.ts
  let receiptId := "KT-" ++ toString ts ++ "-" ++ inp.rid
  let cotHash := sha256HexOfString (jsonStringify inp.payload)
  let parseHash := sha256HexOfString (inp.domain ++ "|" ++ toString ts)
  let artifactHash := sha256HexOfString (cotHash ++ parseHash)
  let signature := sign artifactHash
  let arnold := arnoldTransform st.prevPrevState st.prevState
  let state := sha256HexOfString (artifactHash ++ arnold)
  let chainPosition := st.chainPosition + 1
  let posc : Posc := ⟨state, st.prevState, chainPosition, genesisHash⟩
  let seals : SevenSeals :=
    ⟨artifactHash,
     sha256HexOfString ("local_drand_" ++ toString ts),
     sha256HexOfString ("local_geonet_" ++ toString ts),
     sha256HexOfString (inp.domain ++ "|" ++ artifactHash),
     ⟨posc.state, posc.previous_state, posc.chain_position⟩⟩
  (⟨receiptId, "3.0-transport", inp.iso, publicKey,
    ⟨⟨artifactHash, signature, publicKey⟩, posc, seals⟩,
    "Regan Duff", "Turangawaewae Protocol v3"⟩,
   ⟨chainPosition, state, st.prevState⟩)

/-- A sequence of seal calls against the shared chain state, in order. -/
def sealMany (sign : String → String) (publicKey genesisHash : String) :
    List SealIn → ChainState → List FullReceipt × ChainState
  | [], st => ([], st)
  | inp :: rest, st =>
      let step := sealTransport sign publicKey genesisHash inp st
      let next := sealMany sign publicKey genesisHash rest step.2
      (step.1 :: next.1, next.2)

/-- Compact receipt summary embedded in response bodies. -/
structure CompactReceipt where
  receipt_id : String
  signature : String
  artifact_hash : String
  public_key : String
  chain_position : ℕ
  timestamp : String
  deriving Repr, DecidableEq

/-- `compactReceipt(full)`. -/
def compactReceipt (full : FullReceipt) : CompactReceipt :=
  ⟨full.receipt_id, full.layers.helix.signature, full.layers.helix.artifact_hash,
   full.public_key, full.layers.posc.chain_position, full.timestamp⟩

/-- The compact receipt as the JSON value spliced into a response body. -/
def jsonOfCompact (c : CompactReceipt) : Json :=
  .obj [("receipt_id", .str c.receipt_id), ("signature", .str c.signature),
        ("artifact_hash", .str c.artifact_hash), ("public_key", .str c.public_key),
        ("chain_position", .num c.chain_position), ("timestamp", .str c.timestamp)]

/-- `kaitiakiWrapResponse(data, domain)` (Cloudflare Workers path). The
`sealer` argument stands for the fallible `sealTransport` call: any thrown
error is an `Except.error`, absorbed by the surrounding `try/catch`. Plain
objects are enriched with `_kaitiaki`; arrays/primitives — and every error
case — return the data unchanged. -/
def kaitiakiWrapResponse (sealer : Json → String → Except String FullReceipt)
    (data : Json) (domain : String) : Json :=
  match sealer data domain with
  | Except.error _ => data
  | Except.ok receipt =>
      match data with
      | .obj fields => .obj (fields ++ [("_kaitiaki", jsonOfCompact (compactReceipt receipt))])
      | _ => data

/-- The body handed to the original `res.json` by the Express middleware's
shadowed `kaitiakiJson(data)`: on a sealing error the catch block logs and
falls through to the original data; on success plain objects are enriched
and other shapes pass through (headers only). -/
def kaitiakiExpressDelivered (sealer : Json → String → Except String FullReceipt)
    (data : Json) (domain : String) : Json :=
  match sealer data domain with
  | Except.error _ => data
  | Except.ok receipt =>
      match data with
      | .obj fields => .obj (fields ++ [("_kaitiaki", jsonOfCompact (compactReceipt receipt))])
      | _ => data

/-! ## `shared/kaitiaki/chain.js` -/

/-- A caller-supplied parent receipt record (fields may be absent;
a `chain_depth` that is not a number is modelled as absent). -/
structure ParentRecord where
  receipt_id : Option String := none
  chain_depth : Option ℚ := none
  chain_root : Option String := none
  deriving Repr, DecidableEq

/-- The `parentReceiptOrId` argument of `chainReceipt`: falsy, a bare id
string, or a full parent receipt object. -/
inductive ParentRef where
  | none
  | id (s : String)
  | record (r : ParentRecord)
  deriving Repr, DecidableEq

/-- The chain-of-custody fields written onto the local receipt. -/
structure LinkedReceipt where
  receipt_id : String
  parent_receipt_id : Option String
  chain_depth : ℚ
  chain_root : Option String
  deriving Repr, DecidableEq

/-- The shared tail of `chainReceipt`: given the normalised
`(parentId, parentDepth, parentRoot)` triple, either root a new chain
(`hasParent = Boolean(parentId)` false) or extend the parent. -/
def chainAssign (ownId : String) (parentId : Option String) (parentDepth : ℚ)
    (parentRoot : Option String) : LinkedReceipt :=
  if jsTruthyStr parentId then
    ⟨ownId, parentId, parentDepth + 1, parentRoot⟩
  else
    ⟨ownId, Option.none, 0, some ownId⟩

/-- `chainReceipt(currentReceipt, parentReceiptOrId)`: normalises the parent
reference into `(parentId, parentDepth, parentRoot)` per its shape, then
either roots a new chain (depth 0, root = own id) or extends the parent
(depth + 1, root propagated with fallback to the parent id). -/
def chainReceipt (receipt_id : String) : ParentRef → LinkedReceipt
  | .record r =>
      chainAssign receipt_id r.receipt_id (r.chain_depth.getD 0)
        (match r.chain_root with
         | some rt => some rt
         | none => r.receipt_id)
  | .id s =>
      if trimL s.data ≠ [] then chainAssign receipt_id (some s) 0 (some s)
      else chainAssign receipt_id none 0 none
  | .none => chainAssign receipt_id none 0 none

/-! ## Shared example contexts -/

/-- The end-to-end example context of the spec: confidence 0.75, good data,
declared model version, two models, validated scope with jurisdiction, and a
consent token derived from the very
(cohort, scope, clinician) triple it is validated against. -/
def exampleCtx : GateCtx :=
  { confidence := some 0.75
    data_quality := some "good"
    model_version := some "v1"
    model_count := some 2
    scope := some "population_mortality"
    consent_record_id :=
      (generateConsentRecordId (some "nz-smokers") (some "population_mortality")
        (some "clin-1")).toOption
    cohort := some "nz-smokers"
    clinician_id := some "clin-1"
    regulatory_jurisdiction := some "nz" }

/-- The same context with `confidence = 0.45` (the spec's blocking example). -/
def exampleBlockCtx : GateCtx := { exampleCtx with confidence := some 0.45 }

/-! ## C1 — Boundary-gate failure zeroes the composite -/

/-- **C1.** For every gate context, if the Boundary (brahmacharya) gate
fails, the orchestrator's composite score is exactly `0`, regardless of the
other four gates' scores. -/
theorem boundary_veto_zeroes_composite (ctx : GateCtx)
    (h : (brahmaacharyaGate ctx).pass = false) :
    (runAllGates ctx).constitutional_score = 0 := by
  simp only [runAllGates, h, Bool.not_false, if_true, jsRound]
  norm_num

/-- Witness for C1: the empty context has an absent scope, so the Boundary
gate fails and the composite is `0` even though other gate scores are free. -/
theorem boundary_veto_zeroes_composite_witness :
    (brahmaacharyaGate {}).pass = false ∧
    (runAllGates {}).constitutional_score = 0 :=
  ⟨by decide, boundary_veto_zeroes_composite {} (by decide)⟩

/-! ## C2 — the spec's end-to-end passing example -/

set_option maxRecDepth 16000 in
/-- **C2.** On the spec's example context the five gates score
0.95 / 0.825 / 0.95 / 0.90 / 0.72, the rounded composite is 0.874, and the
overall verdict passes. -/
theorem example_ctx_end_to_end :
    (runAllGates exampleCtx).yamas.ahimsa.score = 0.95 ∧
    (runAllGates exampleCtx).yamas.satya.score = 0.825 ∧
    (runAllGates exampleCtx).yamas.asteya.score = 0.95 ∧
    (runAllGates exampleCtx).yamas.brahmacharya.score = 0.90 ∧
    (runAllGates exampleCtx).yamas.aparigraha.score = 0.72 ∧
    (runAllGates exampleCtx).constitutional_score = 0.874 ∧
    (runAllGates exampleCtx).pass = true := by
  with_unfolding_all decide

/-! ## C3 — the spec's blocking example (corrected arithmetic) -/

set_option maxRecDepth 16000 in
/-- Counterexample for C3 as stated: on the blocking example the weighted
composite is `0.668`, not the `0.6565` asserted by the spec
(`0.25·0.95 + 0.25·0 + 0.15·0.95 + 0.20·0.90 + 0.15·0.72 = 0.668`). -/
theorem example_block_composite_not_0_6565 :
    (runAllGates exampleBlockCtx).receipt_fields.constitutional_score = 0.668 ∧
    (0.668 : ℚ) ≠ 0.6565 := by
  with_unfolding_all decide

set_option maxRecDepth 16000 in
/-- **C3 (amended).** With `confidence = 0.45` the Truthfulness gate fails
contributing score 0, the Boundary gate still passes, the weighted composite
equals `0.25·0.95 + 0.25·0 + 0.15·0.95 + 0.20·0.90 + 0.15·0.72 = 0.668`,
`blocked_by` contains exactly the truthfulness entry, and the overall verdict
is denied even though the composite clears the 0.60 threshold — a non-empty
blocking list always wins. -/
theorem example_block_end_to_end :
    (runAllGates exampleBlockCtx).yamas.satya.pass = false ∧
    (runAllGates exampleBlockCtx).yamas.satya.score = 0 ∧
    (runAllGates exampleBlockCtx).receipt_fields.constitutional_score =
      0.25 * 0.95 + 0.25 * 0.0 + 0.15 * 0.95 + 0.20 * 0.90 + 0.15 * 0.72 ∧
    (runAllGates exampleBlockCtx).receipt_fields.constitutional_score = 0.668 ∧
    (runAllGates exampleBlockCtx).blocked_by =
      ["satya: SATYA_VIOLATION: confidence 0.450 < minimum 0.60"] ∧
    (runAllGates exampleBlockCtx).pass = false ∧
    (0.60 : ℚ) ≤ (runAllGates exampleBlockCtx).receipt_fields.constitutional_score := by
  with_unfolding_all decide

/-! ## C10 — satya defaults for absent fields -/

/-- Counterexample for C10 as stated: in a context where `data_quality` is
absent but `confidence` is also absent, the gate blocks with the
below-minimum confidence reason, not the insufficient-data-quality reason,
so "every context with absent `data_quality` blocks with the data-quality
reason" fails. -/
theorem satya_absent_both_counterexample :
    ({} : GateCtx).data_quality = none ∧
    (satyaGate {}).reason = "SATYA_VIOLATION: confidence 0.000 < minimum 0.60" ∧
    (satyaGate {}).reason ≠
      "SATYA_VIOLATION: data_quality \x27unknown\x27 is insufficient for actuarial assessment" := by
  with_unfolding_all decide

/-- **C10 (amended).** If `data_quality` is absent it defaults to
`"unknown"` and — provided the confidence checks pass — the gate blocks with
the insufficient-data-quality reason; if `confidence` is absent it defaults
to `0` and the gate blocks with the below-0.60-minimum reason (not the
not-a-number reason); in particular a context missing either field can
never pass this gate. -/
theorem satya_absent_field_defaults (ctx : GateCtx) :
    (ctx.data_quality = none → ∀ c : ℚ, ctx.confidence = some c →
      0 ≤ c → c ≤ 1 → 0.60 ≤ c →
      (satyaGate ctx).pass = false ∧
      (satyaGate ctx).reason =
        "SATYA_VIOLATION: data_quality \x27unknown\x27 is insufficient for actuarial assessment") ∧
    (ctx.confidence = none →
      (satyaGate ctx).pass = false ∧
      (satyaGate ctx).reason = "SATYA_VIOLATION: confidence 0.000 < minimum 0.60") ∧
    ((ctx.data_quality = none ∨ ctx.confidence = none) →
      (satyaGate ctx).pass = false) := by
  refine ⟨?_, ?_, ?_⟩
  · intro hdq c hc h0 h1 h06
    have hnot : ¬ ((c : ℚ) < 0 ∨ (c : ℚ) > 1) := by
      push_neg
      exact ⟨h0, h1⟩
    have hnot2 : ¬ ((c : ℚ) < 0.60) := not_lt.mpr h06
    simp [satyaGate, hdq, hc, hnot, hnot2]
  · intro hc
    have h1 : ¬ ((0 : ℚ) < 0 ∨ (0 : ℚ) > 1) := by norm_num
    have h2 : (0 : ℚ) < 0.60 := by norm_num
    constructor
    · simp only [satyaGate, hc, Option.getD_none, h1, if_false, h2, if_true]
    · simp only [satyaGate, hc, Option.getD_none, h1, if_false, h2, if_true]
      with_unfolding_all decide
  · rintro (hdq | hc)
    · by_cases hcv : ∃ c : ℚ, ctx.confidence = some c
      · obtain ⟨c, hc⟩ := hcv
        by_cases hr : (c : ℚ) < 0 ∨ (c : ℚ) > 1
        · simp [satyaGate, hc, hr]
        · by_cases hm : (c : ℚ) < 0.60
          · simp [satyaGate, hc, hr, hm]
          · simp [satyaGate, hdq, hc, hr, hm]
      · have hc : ctx.confidence = none := by
          cases h : ctx.confidence with
          | none => rfl
          | some c => exact absurd ⟨c, h⟩ hcv
        have h1 : ¬ ((0 : ℚ) < 0 ∨ (0 : ℚ) > 1) := by norm_num
        have h2 : (0 : ℚ) < 0.60 := by norm_num
        simp only [satyaGate, hc, Option.getD_none, h1, if_false, h2, if_true]
    · have h1 : ¬ ((0 : ℚ) < 0 ∨ (0 : ℚ) > 1) := by norm_num
      have h2 : (0 : ℚ) < 0.60 := by norm_num
      simp only [satyaGate, hc, Option.getD_none, h1, if_false, h2, if_true]

/-- Witness for the amended C10, at two concrete contexts: absent
`data_quality` with confidence 0.75 blocks on data quality; absent
`confidence` blocks on the 0.60 minimum. -/
theorem satya_absent_field_defaults_witness :
    ((satyaGate { confidence := some 0.75 }).pass = false ∧
      (satyaGate { confidence := some 0.75 }).reason =
        "SATYA_VIOLATION: data_quality \x27unknown\x27 is insufficient for actuarial assessment") ∧
    ((satyaGate { data_quality := some "good" }).pass = false ∧
      (satyaGate { data_quality := some "good" }).reason =
        "SATYA_VIOLATION: confidence 0.000 < minimum 0.60") ∧
    (satyaGate { confidence := some 0.75 }).pass = false :=
  ⟨(satya_absent_field_defaults { confidence := some 0.75 }).1 rfl 0.75 rfl
      (by norm_num) (by norm_num) (by norm_num),
   ((satya_absent_field_defaults { data_quality := some "good" }).2.1 rfl),
   (satya_absent_field_defaults { confidence := some 0.75 }).2.2 (Or.inl rfl)⟩

/-! ## C4 — consent anchor round-trip -/

/-- `startsWith` holds on any literal-prefixed concatenation. -/
theorem jsStartsWith_append (pre rest : String) :
    jsStartsWith (pre ++ rest) pre = true := by
  simp [jsStartsWith, List.isPrefixOf_iff_prefix, String.data_append,
    List.prefix_append]

/-- The canonical serialized triple hashed by `generateConsentRecordId`. -/
def deriveCanonical (g s a : String) : String :=
  ⟨canonL (normCS g) (normCS s) (trimL a.data)⟩

/-- The anchor value produced by `generateConsentRecordId` on truthy inputs:
`CR-` plus the first 32 hex characters of the canonical digest. -/
def deriveAnchor (g s a : String) : String :=
  "CR-" ++ ⟨(sha256HexOfString (deriveCanonical g s a)).data.take 32⟩

/-- On non-empty inputs, `generateConsentRecordId` succeeds with
`deriveAnchor`. -/
theorem generate_eq_deriveAnchor (g s a : String)
    (hg : g ≠ "") (hs : s ≠ "") (ha : a ≠ "") :
    generateConsentRecordId (some g) (some s) (some a) =
      Except.ok (deriveAnchor g s a) := by
  have hcond : (jsTruthyStr (some g) && jsTruthyStr (some s) &&
      jsTruthyStr (some a)) = true := by
    simp [jsTruthyStr, hg, hs, ha]
  unfold generateConsentRecordId
  rw [if_pos hcond]
  rfl

/-- An anchor always starts with `CR-` and is non-empty. -/
theorem deriveAnchor_ne_empty (g s a : String) : deriveAnchor g s a ≠ "" := by
  intro hcontra
  have hdata : "CR-".data ++
      ((⟨(sha256HexOfString (deriveCanonical g s a)).data.take 32⟩ : String)).data =
      ([] : List Char) := by
    have := congrArg String.data hcontra
    rw [deriveAnchor, String.data_append] at this
    exact this
  exact absurd (List.append_eq_nil.mp hdata).1 (by decide)

/-- Validation succeeds whenever derivation reproduces the given id. -/
theorem validate_of_generate_ok (id : String) (c s a : Option String)
    (hid : generateConsentRecordId c s a = Except.ok id)
    (hne : id ≠ "") (hpre : jsStartsWith id "CR-" = true) :
    validateConsentRecord (some id) c s a = ⟨true, "CONSENT_VALID"⟩ := by
  show (if id = "" then _ else _) = _
  rw [if_neg hne, if_neg (not_not_intro hpre)]
  split
  · rename_i msg heq
    rw [hid] at heq
    exact absurd heq (by simp)
  · rename_i expected heq
    rw [hid] at heq
    obtain rfl : expected = id := by
      injection heq with h
      exact h.symm
    rw [if_neg (not_not_intro rfl)]

/-- **C4.** Round-trip law: for all non-empty `g`, `s`, `a`, deriving an
anchor and validating it against the same triple succeeds. -/
theorem consent_roundtrip (g s a : String)
    (hg : g ≠ "") (hs : s ≠ "") (ha : a ≠ "") :
    ∃ anchor,
      generateConsentRecordId (some g) (some s) (some a) = Except.ok anchor ∧
      (validateConsentRecord (some anchor) (some g) (some s) (some a)).valid = true := by
  refine ⟨deriveAnchor g s a, generate_eq_deriveAnchor g s a hg hs ha, ?_⟩
  rw [validate_of_generate_ok (deriveAnchor g s a) (some g) (some s) (some a)
    (generate_eq_deriveAnchor g s a hg hs ha) (deriveAnchor_ne_empty g s a)
    (jsStartsWith_append "CR-" _)]

/-- Witness for C4 at the concrete triple `("g", "s", "a")`. -/
theorem consent_roundtrip_witness :
    (("g" : String) ≠ "" ∧ ("s" : String) ≠ "" ∧ ("a" : String) ≠ "") ∧
    ∃ anchor,
      generateConsentRecordId (some "g") (some "s") (some "a") = Except.ok anchor ∧
      (validateConsentRecord (some anchor) (some "g") (some "s") (some "a")).valid = true :=
  ⟨by decide, consent_roundtrip "g" "s" "a" (by decide) (by decide) (by decide)⟩

/-! ## C6 — one seal, one chain position -/

/-- One seal call advances the counter by exactly one and embeds the
post-increment counter in the receipt. -/
theorem sealTransport_advances_one (sign : String → String) (pk gen : String)
    (inp : SealIn) (st : ChainState) :
    (sealTransport sign pk gen inp st).2.chainPosition = st.chainPosition + 1 ∧
    (sealTransport sign pk gen inp st).1.layers.posc.chain_position =
      st.chainPosition + 1 :=
  ⟨rfl, rfl⟩

/-- Generalized chain-position law for a run of seals from any start. -/
theorem sealMany_positions (sign : String → String) (pk gen : String)
    (inputs : List SealIn) : ∀ st : ChainState,
    (sealMany sign pk gen inputs st).2.chainPosition =
      st.chainPosition + inputs.length ∧
    ((sealMany sign pk gen inputs st).1.map fun r => r.layers.posc.chain_position) =
      List.range' (st.chainPosition + 1) inputs.length := by
  induction inputs with
  | nil => intro st; simp [sealMany]
  | cons inp rest ih =>
      intro st
      obtain ⟨ihA, ihB⟩ := ih (sealTransport sign pk gen inp st).2
      have hst : (sealTransport sign pk gen inp st).2.chainPosition =
          st.chainPosition + 1 := rfl
      constructor
      · show (sealMany sign pk gen rest (sealTransport sign pk gen inp st).2).2.chainPosition = _
        rw [ihA, hst, List.length_cons]
        omega
      · show ((sealTransport sign pk gen inp st).1 ::
            (sealMany sign pk gen rest (sealTransport sign pk gen inp st).2).1).map
            (fun r => r.layers.posc.chain_position) = _
        rw [List.map_cons, ihB, hst, List.length_cons, List.range'_succ]
        rfl

/-- **C6.** Each seal advances the position counter by exactly one and
embeds the post-increment counter in its receipt; hence N seal calls from a
fresh chain (counter 0) end at `position_counter = N` and emit receipts with
chain positions exactly `1..N`, with no duplicates or gaps. -/
theorem seal_chain_positions (sign : String → String) (pk gen : String)
    (inputs : List SealIn) (st : ChainState) (h0 : st.chainPosition = 0) :
    (∀ (inp : SealIn) (st' : ChainState),
      (sealTransport sign pk gen inp st').2.chainPosition = st'.chainPosition + 1 ∧
      (sealTransport sign pk gen inp st').1.layers.posc.chain_position =
        st'.chainPosition + 1) ∧
    (sealMany sign pk gen inputs st).2.chainPosition = inputs.length ∧
    ((sealMany sign pk gen inputs st).1.map fun r => r.layers.posc.chain_position) =
      List.range' 1 inputs.length ∧
    ((sealMany sign pk gen inputs st).1.map fun r => r.layers.posc.chain_position).Nodup := by
  obtain ⟨hA, hB⟩ := sealMany_positions sign pk gen inputs st
  rw [h0] at hA hB
  refine ⟨fun inp st' => sealTransport_advances_one sign pk gen inp st', ?_, ?_, ?_⟩
  · simpa using hA
  · simpa using hB
  · rw [show ((sealMany sign pk gen inputs st).1.map
        fun r => r.layers.posc.chain_position) = List.range' 1 inputs.length by
          simpa using hB]
    exact List.nodup_range' 1 inputs.length

/-- Witness for C6: two concrete seals from a fresh chain, with a trivial
signer — the final counter is 2 and the receipt positions are `[1, 2]`. -/
theorem seal_chain_positions_witness :
    (ChainState.mk 0 "g" "g").chainPosition = 0 ∧
    ((sealMany (fun _ => "sig") "pk" "g"
        [⟨"ab", Json.null, "GET /a", 1, "t1"⟩, ⟨"cd", Json.null, "GET /b", 2, "t2"⟩]
        ⟨0, "g", "g"⟩).2.chainPosition = 2 ∧
      ((sealMany (fun _ => "sig") "pk" "g"
        [⟨"ab", Json.null, "GET /a", 1, "t1"⟩, ⟨"cd", Json.null, "GET /b", 2, "t2"⟩]
        ⟨0, "g", "g"⟩).1.map fun r => r.layers.posc.chain_position) =
        List.range' 1 2) :=
  ⟨rfl,
   (seal_chain_positions (fun _ => "sig") "pk" "g"
      [⟨"ab", Json.null, "GET /a", 1, "t1"⟩, ⟨"cd", Json.null, "GET /b", 2, "t2"⟩]
      ⟨0, "g", "g"⟩ rfl).2.1,
   (seal_chain_positions (fun _ => "sig") "pk" "g"
      [⟨"ab", Json.null, "GET /a", 1, "t1"⟩, ⟨"cd", Json.null, "GET /b", 2, "t2"⟩]
      ⟨0, "g", "g"⟩ rfl).2.2.1⟩

/-! ## C7 — sealing failure never drops the payload -/

/-- **C7.** If sealing fails, both transport wrappers deliver the original
payload unchanged and unsealed: the Workers-path `kaitiakiWrapResponse`
returns the input data itself, and the Express-path shadowed `res.json`
hands the original data to the underlying serializer. -/
theorem sealing_failure_delivers_unsealed
    (sealer : Json → String → Except String FullReceipt)
    (data : Json) (domain : String)
    (h : ∃ e, sealer data domain = Except.error e) :
    kaitiakiWrapResponse sealer data domain = data ∧
    kaitiakiExpressDelivered sealer data domain = data := by
  obtain ⟨e, he⟩ := h
  constructor
  · unfold kaitiakiWrapResponse
    rw [he]
  · unfold kaitiakiExpressDelivered
    rw [he]

/-- Witness for C7: a sealer that throws on every input; the object payload
is delivered untouched by both paths. -/
theorem sealing_failure_delivers_unsealed_witness :
    (∃ e, (fun (_ : Json) (_ : String) =>
        (Except.error "seal error" : Except String FullReceipt))
        (Json.obj [("ok", Json.bool true)]) "POST /api/assess" = Except.error e) ∧
    kaitiakiWrapResponse
        (fun _ _ => Except.error "seal error")
        (Json.obj [("ok", Json.bool true)]) "POST /api/assess" =
      Json.obj [("ok", Json.bool true)] ∧
    kaitiakiExpressDelivered
        (fun _ _ => Except.error "seal error")
        (Json.obj [("ok", Json.bool true)]) "POST /api/assess" =
      Json.obj [("ok", Json.bool true)] :=
  ⟨⟨"seal error", rfl⟩,
   (sealing_failure_delivers_unsealed (fun _ _ => Except.error "seal error")
      (Json.obj [("ok", Json.bool true)]) "POST /api/assess" ⟨"seal error", rfl⟩).1,
   (sealing_failure_delivers_unsealed (fun _ _ => Except.error "seal error")
      (Json.obj [("ok", Json.bool true)]) "POST /api/assess" ⟨"seal error", rfl⟩).2⟩

/-! ## C9 — chain-of-custody link shapes -/

/-- Counterexample for C9 as stated: `" "` is a non-empty bare id string,
yet `chainReceipt` treats it as absent (the source requires a non-blank
trimmed id), producing `parent_receipt_id = null`, depth 0 and the local
receipt as root — not `parent_receipt_id = " "`, depth 1, root `" "`. -/
theorem chainReceipt_blank_id_counterexample :
    (" " : String) ≠ "" ∧
    (chainReceipt "KT-1" (ParentRef.id " ")).parent_receipt_id = Option.none ∧
    (chainReceipt "KT-1" (ParentRef.id " ")).chain_depth = 0 ∧
    (chainReceipt "KT-1" (ParentRef.id " ")).chain_root = some "KT-1" := by
  with_unfolding_all decide

/-- **C9 (amended).** `chainReceipt` link shapes: no parent → depth 0,
root = own id; full parent record with a truthy `receipt_id` and a numeric
`chain_depth` → parent id copied, depth = parent depth + 1, root propagated
with fallback to the parent id; bare id string that is non-blank after
trimming → parent id = the string, depth 1, root = the string. -/
theorem chainReceipt_link_shapes (own : String) (r : ParentRecord)
    (rid : String) (d : ℚ) (s : String) :
    (chainReceipt own ParentRef.none = ⟨own, Option.none, 0, some own⟩) ∧
    (r.receipt_id = some rid → rid ≠ "" → r.chain_depth = some d →
      chainReceipt own (ParentRef.record r) =
        ⟨own, some rid, d + 1,
         match r.chain_root with
         | some rt => some rt
         | Option.none => some rid⟩) ∧
    (trimL s.data ≠ [] →
      chainReceipt own (ParentRef.id s) = ⟨own, some s, 1, some s⟩) := by
  refine ⟨rfl, ?_, ?_⟩
  · intro hrid hne hd
    have htr : jsTruthyStr (some rid) = true := by simp [jsTruthyStr, hne]
    show chainAssign own r.receipt_id (r.chain_depth.getD 0) _ = _
    rw [hrid, hd, Option.getD_some]
    unfold chainAssign
    rw [htr, if_pos rfl]
  · intro ht
    have hs : s ≠ "" := by
      intro hcontra
      rw [hcontra] at ht
      exact ht rfl
    have htr : jsTruthyStr (some s) = true := by simp [jsTruthyStr, hs]
    show (if trimL s.data ≠ [] then chainAssign own (some s) 0 (some s)
      else chainAssign own none 0 none) = _
    rw [if_pos ht]
    unfold chainAssign
    rw [htr, if_pos rfl]
    norm_num

/-- Witness for the amended C9: a full parent at depth 2 with a recorded
root yields depth 3 and the parent's root unchanged; a non-blank bare id
yields depth 1 rooted at the id. -/
theorem chainReceipt_link_shapes_witness :
    (chainReceipt "KT-1" ParentRef.none =
      ⟨"KT-1", Option.none, 0, some "KT-1"⟩) ∧
    (chainReceipt "KT-1" (ParentRef.record ⟨some "KT-0", some 2, some "KT-root"⟩) =
      ⟨"KT-1", some "KT-0", 2 + 1, some "KT-root"⟩) ∧
    (chainReceipt "KT-1" (ParentRef.id "KT-p") =
      ⟨"KT-1", some "KT-p", 1, some "KT-p"⟩) :=
  ⟨(chainReceipt_link_shapes "KT-1" ⟨some "KT-0", some 2, some "KT-root"⟩
      "KT-0" 2 "KT-p").1,
   (chainReceipt_link_shapes "KT-1" ⟨some "KT-0", some 2, some "KT-root"⟩
      "KT-0" 2 "KT-p").2.1 rfl (by decide) rfl,
   (chainReceipt_link_shapes "KT-1" ⟨some "KT-0", some 2, some "KT-root"⟩
      "KT-0" 2 "KT-p").2.2 (by decide)⟩

/-! ## C5 — no parameter-swap collision

The crux is that the canonical JSON serialization is injective in the
(cohort, scope) pair: the escaped field values form a uniquely decodable
code, and the inter-field delimiter starts with a raw quote, which no
escaped value can begin with. -/

/-- Characters equal modulo `toNat` are equal. -/
theorem char_toNat_inj {a b : Char} (h : a.toNat = b.toNat) : a = b := by
  have h2 := congrArg Char.ofNat h
  rwa [Char.ofNat_toNat, Char.ofNat_toNat] at h2

/-- The source character of a two-character escape `['\\', k]`. -/
def escKey (k : Char) : Option Char :=
  if k = '"' then some '"'
  else if k = '\\' then some '\\'
  else if k = 'b' then some (Char.ofNat 8)
  else if k = 't' then some (Char.ofNat 9)
  else if k = 'n' then some (Char.ofNat 10)
  else if k = 'f' then some (Char.ofNat 12)
  else if k = 'r' then some (Char.ofNat 13)
  else none

/-- Every escape code has one of three shapes: a literal non-special
character, a two-character named escape, or a six-character `\u00xx`
escape. -/
theorem escChar_shape (c : Char) :
    (escChar c = [c] ∧ c ≠ '"' ∧ c ≠ '\\' ∧ 32 ≤ c.toNat) ∨
    (∃ k, escChar c = ['\\', k] ∧ k ≠ 'u' ∧ escKey k = some c) ∨
    (escChar c =
      ['\\', 'u', '0', '0', nibbleChar (c.toNat / 16), nibbleChar (c.toNat % 16)] ∧
      c.toNat < 32) := by
  unfold escChar
  split_ifs with h1 h2 h3 h4 h5 h6 h7 h8
  · exact Or.inr (Or.inl ⟨'"', rfl, by decide, by rw [h1]; decide⟩)
  · exact Or.inr (Or.inl ⟨'\\', rfl, by decide, by rw [h2]; decide⟩)
  · refine Or.inr (Or.inl ⟨'b', rfl, by decide, ?_⟩)
    have hc : c = Char.ofNat 8 :=
      char_toNat_inj (h3.trans (by decide : (8 : ℕ) = (Char.ofNat 8).toNat))
    rw [hc]
    decide
  · refine Or.inr (Or.inl ⟨'t', rfl, by decide, ?_⟩)
    have hc : c = Char.ofNat 9 :=
      char_toNat_inj (h4.trans (by decide : (9 : ℕ) = (Char.ofNat 9).toNat))
    rw [hc]
    decide
  · refine Or.inr (Or.inl ⟨'n', rfl, by decide, ?_⟩)
    have hc : c = Char.ofNat 10 :=
      char_toNat_inj (h5.trans (by decide : (10 : ℕ) = (Char.ofNat 10).toNat))
    rw [hc]
    decide
  · refine Or.inr (Or.inl ⟨'f', rfl, by decide, ?_⟩)
    have hc : c = Char.ofNat 12 :=
      char_toNat_inj (h6.trans (by decide : (12 : ℕ) = (Char.ofNat 12).toNat))
    rw [hc]
    decide
  · refine Or.inr (Or.inl ⟨'r', rfl, by decide, ?_⟩)
    have hc : c = Char.ofNat 13 :=
      char_toNat_inj (h7.trans (by decide : (13 : ℕ) = (Char.ofNat 13).toNat))
    rw [hc]
    decide
  · exact Or.inr (Or.inr ⟨rfl, h8⟩)
  · exact Or.inl ⟨rfl, h1, h2, by omega⟩

/-- `nibbleChar` is injective on nibbles. -/
theorem nibbleChar_inj {m n : ℕ} (hm : m < 16) (hn : n < 16)
    (h : nibbleChar m = nibbleChar n) : m = n := by
  interval_cases m <;> interval_cases n <;> revert h <;> decide

theorem escChar_ne_nil (c : Char) : escChar c ≠ [] := by
  rcases escChar_shape c with ⟨hc, -⟩ | ⟨k, hc, -⟩ | ⟨hc, -⟩ <;> simp [hc]

/-- No escape code starts with a raw quote. -/
theorem escChar_ne_quote_cons (c : Char) (t : List Char) :
    escChar c ≠ '"' :: t := by
  rcases escChar_shape c with ⟨hc, hq, -⟩ | ⟨k, hc, -⟩ | ⟨hc, -⟩ <;>
    rw [hc] <;> intro hcontra
  · exact hq (List.cons.injEq .. ▸ hcontra).1
  · exact absurd (List.cons.injEq .. ▸ hcontra).1 (by decide)
  · exact absurd (List.cons.injEq .. ▸ hcontra).1 (by decide)

/-- Distinct characters never have one escape code a prefix of the other. -/
theorem escChar_prefix_inj {a b : Char} (h : escChar a <+: escChar b) :
    a = b := by
  rcases escChar_shape a with ⟨ea, ha1, ha2, ha3⟩ | ⟨ka, ea, hau, hakey⟩ | ⟨ea, ha3⟩ <;>
    rcases escChar_shape b with ⟨eb, hb1, hb2, hb3⟩ | ⟨kb, eb, hbu, hbkey⟩ | ⟨eb, hb3⟩ <;>
    rw [ea, eb] at h
  · exact (List.cons_prefix_cons.mp h).1
  · exact absurd (List.cons_prefix_cons.mp h).1 ha2
  · exact absurd (List.cons_prefix_cons.mp h).1 ha2
  · have := h.length_le
    simp at this
  · have hk : ka = kb :=
      (List.cons_prefix_cons.mp (List.cons_prefix_cons.mp h).2).1
    rw [hk, hbkey] at hakey
    exact (Option.some.injEq .. ▸ hakey.symm :)
  · have hk : ka = 'u' :=
      (List.cons_prefix_cons.mp (List.cons_prefix_cons.mp h).2).1
    exact absurd hk hau
  · have := h.length_le
    simp at this
  · have := h.length_le
    simp at this
  · have heq := h.eq_of_length (by simp)
    have h4 : nibbleChar (a.toNat / 16) = nibbleChar (b.toNat / 16) := by
      simpa using congrArg (fun l => l.get? 4) heq
    have h5 : nibbleChar (a.toNat % 16) = nibbleChar (b.toNat % 16) := by
      simpa using congrArg (fun l => l.get? 5) heq
    have hd : a.toNat / 16 = b.toNat / 16 :=
      nibbleChar_inj (by omega) (by omega) h4
    have hm : a.toNat % 16 = b.toNat % 16 :=
      nibbleChar_inj (by omega) (by omega) h5
    exact char_toNat_inj (by omega)

theorem escL_nil : escL [] = [] := rfl

theorem escL_cons (c : Char) (l : List Char) :
    escL (c :: l) = escChar c ++ escL l := by
  simp [escL]

theorem escL_append (x y : List Char) : escL (x ++ y) = escL x ++ escL y := by
  simp [escL]

/-- A non-empty escaped value never starts with a raw quote. -/
theorem escL_ne_quote_cons (x : List Char) (hx : x ≠ []) (t : List Char) :
    escL x ≠ '"' :: t := by
  cases x with
  | nil => exact absurd rfl hx
  | cons c rest =>
    rw [escL_cons]
    intro hcontra
    cases hc : escChar c with
    | nil => exact escChar_ne_nil c hc
    | cons e es =>
      rw [hc] at hcontra
      rw [List.cons_append] at hcontra
      have he : e = '"' := (List.cons.injEq .. ▸ hcontra).1
      exact escChar_ne_quote_cons c es (by rw [hc, he])

/-- The escape code is a prefix code: an escaped value that prefixes another
comes from a prefix of its source. -/
theorem escL_prefix : ∀ {x y : List Char}, escL x <+: escL y → x <+: y := by
  intro x
  induction x with
  | nil => intro y _; exact List.nil_prefix
  | cons c x' ih =>
    intro y h
    cases y with
    | nil =>
      rw [escL_cons, escL_nil] at h
      have hnil := List.prefix_nil.mp h
      exact absurd (List.append_eq_nil.mp hnil).1 (escChar_ne_nil c)
    | cons d y' =>
      rw [escL_cons, escL_cons] at h
      have hcd : c = d := by
        have h1 : escChar c <+: escChar d ++ escL y' :=
          (List.prefix_append _ _).trans h
        have h2 : escChar d <+: escChar d ++ escL y' := List.prefix_append _ _
        rcases le_total (escChar c).length (escChar d).length with hle | hle
        · exact escChar_prefix_inj (List.prefix_of_prefix_length_le h1 h2 hle)
        · exact (escChar_prefix_inj (List.prefix_of_prefix_length_le h2 h1 hle)).symm
      subst hcd
      have h3 : escL x' <+: escL y' := (List.prefix_append_right_inj _).mp h
      exact List.cons_prefix_cons.mpr ⟨rfl, ih h3⟩

/-- `escL` is injective. -/
theorem escL_inj {x y : List Char} (h : escL x = escL y) : x = y := by
  have h1 : x <+: y := escL_prefix (h ▸ List.prefix_refl _)
  have h2 : y <+: x := escL_prefix (h.symm ▸ List.prefix_refl _)
  exact h1.eq_of_length (Nat.le_antisymm h1.length_le h2.length_le)

/-- Strict-length half of the swap argument: if the escaped values have
different lengths, the swapped concatenations around a quote-led delimiter
can never coincide. -/
theorem esc_swap_ne_of_lt {x y m t : List Char} (hm : m = '"' :: t)
    (hlt : (escL x).length < (escL y).length)
    (h : escL x ++ (m ++ escL y) = escL y ++ (m ++ escL x)) : False := by
  have px : escL x <+: escL x ++ (m ++ escL y) := List.prefix_append _ _
  have py : escL y <+: escL x ++ (m ++ escL y) := by
    rw [h]; exact List.prefix_append _ _
  have hxy : x <+: y :=
    escL_prefix (List.prefix_of_prefix_length_le px py (le_of_lt hlt))
  obtain ⟨d, hd⟩ := hxy
  subst hd
  have hdne : d ≠ [] := by
    rintro rfl
    simp at hlt
  rw [escL_append] at h
  rw [List.append_assoc] at h
  have h2 : m ++ (escL x ++ escL d) = escL d ++ (m ++ escL x) :=
    List.append_cancel_left h
  cases hdc : escL d with
  | nil => exact hdne (escL_inj (hdc.trans rfl))
  | cons e es =>
    rw [hdc, hm, List.cons_append, List.cons_append] at h2
    have he : e = '"' := ((List.cons.injEq .. ▸ h2).1).symm
    exact escL_ne_quote_cons d hdne es (by rw [hdc, he])

/-- The swap argument: equality of the two swapped concatenations around a
quote-led delimiter forces the two escaped values to agree. -/
theorem esc_swap_eq {x y m t : List Char} (hm : m = '"' :: t)
    (h : escL x ++ (m ++ escL y) = escL y ++ (m ++ escL x)) : x = y := by
  rcases lt_trichotomy (escL x).length (escL y).length with hlt | heq | hgt
  · exact (esc_swap_ne_of_lt hm hlt h).elim
  · have px : escL x <+: escL x ++ (m ++ escL y) := List.prefix_append _ _
    have py : escL y <+: escL x ++ (m ++ escL y) := by
      rw [h]; exact List.prefix_append _ _
    exact escL_inj
      ((List.prefix_of_prefix_length_le px py (le_of_eq heq)).eq_of_length heq)
  · exact (esc_swap_ne_of_lt hm hgt h.symm).elim

/-- Swapping the cohort and scope slots of the canonical serialization never
collides unless the two values are equal. -/
theorem canonL_swap {x y a : List Char} (h : canonL x y a = canonL y x a) :
    x = y := by
  unfold canonL at h
  simp only [List.append_assoc] at h
  have h1 := List.append_cancel_left h
  have h2 : (escL x ++ ("\",\"scope\":\"".data ++ escL y)) ++
      ("\",\"clinician_id\":\"".data ++ (escL a ++ "\"\x7d".data)) =
      (escL y ++ ("\",\"scope\":\"".data ++ escL x)) ++
      ("\",\"clinician_id\":\"".data ++ (escL a ++ "\"\x7d".data)) := by
    simpa [List.append_assoc] using h1
  have h3 := List.append_cancel_right h2
  exact esc_swap_eq (t := ",\"scope\":\"".data) (by decide) h3

/-- Cancellation of the literal `CR-` prefix on anchor strings. -/
theorem cr_append_inj {u v : List Char}
    (h : ("CR-" ++ (⟨u⟩ : String)) = "CR-" ++ (⟨v⟩ : String)) : u = v := by
  have hdata := congrArg String.data h
  rw [String.data_append, String.data_append] at hdata
  exact List.append_cancel_left hdata

/-- **C5.** No parameter-swap collision, modulo the collision-resistance of
the truncated SHA-256 digest (stated as the explicit hypothesis `hcoll` on
the two canonical encodings): if deriving with the cohort and scope
arguments swapped yields the same anchor, the normalized (trimmed,
lower-cased) values of `g` and `s` must be equal. -/
theorem anchor_swap_collision_free (g s a : String)
    (hg : g ≠ "") (hs : s ≠ "") (ha : a ≠ "")
    (hcoll : (sha256HexOfString (deriveCanonical s g a)).data.take 32 =
        (sha256HexOfString (deriveCanonical g s a)).data.take 32 →
      deriveCanonical s g a = deriveCanonical g s a)
    (heq : generateConsentRecordId (some s) (some g) (some a) =
        generateConsentRecordId (some g) (some s) (some a)) :
    normCS g = normCS s := by
  rw [generate_eq_deriveAnchor s g a hs hg ha,
    generate_eq_deriveAnchor g s a hg hs ha] at heq
  have hA : deriveAnchor s g a = deriveAnchor g s a := by
    injection heq
  have htake : (sha256HexOfString (deriveCanonical s g a)).data.take 32 =
      (sha256HexOfString (deriveCanonical g s a)).data.take 32 :=
    cr_append_inj hA
  have hcanon : canonL (normCS s) (normCS g) (trimL a.data) =
      canonL (normCS g) (normCS s) (trimL a.data) :=
    congrArg String.data (hcoll htake)
  exact (canonL_swap hcanon).symm

set_option maxHeartbeats 2000000 in
/-- Witness for C5 at `g = "A "`, `s = "a"`, `a = "c"`: the two normalized
values coincide, the swapped derivations agree, and the collision hypothesis
is discharged by computing both canonical encodings. -/
theorem anchor_swap_collision_free_witness :
    (("A " : String) ≠ "" ∧ ("a" : String) ≠ "" ∧ ("c" : String) ≠ "") ∧
    normCS "A " = normCS "a" :=
  ⟨by decide,
   anchor_swap_collision_free "A " "a" "c" (by decide) (by decide) (by decide)
     (fun _ => by with_unfolding_all decide)
     (by
      rw [generate_eq_deriveAnchor "a" "A " "c" (by decide) (by decide) (by decide),
        generate_eq_deriveAnchor "A " "a" "c" (by decide) (by decide) (by decide)]
      exact congrArg Except.ok (by with_unfolding_all decide))⟩

/-! ## C8 — the mixing transform equals the spec's reference definition

The spec describes the transform over the *numbers*: take the leading
64 bits of each prior state, mix mod `P = 2^128 - 159`, and hash the
concatenation of the fixed-width 128-bit big-endian encodings. The code
works over hex *strings* (`toString(16).padStart(32,'0')`,
`Buffer.from(…,'hex')`). The bridge is proved via little-endian digit
lists. -/

/-- Little-endian base-16 digits of `n`, exactly `k` of them. -/
def nibsLE : ℕ → ℕ → List ℕ
  | 0, _ => []
  | k + 1, x => x % 16 :: nibsLE k (x / 16)

/-- Little-endian base-256 digits of `n`, exactly `k` of them. -/
def bytesLE : ℕ → ℕ → List ℕ
  | 0, _ => []
  | k + 1, x => x % 256 :: bytesLE k (x / 256)

/-- Little-endian hex digit values of `n` with no leading zeros
(fuel-driven, mirroring `natToHexCore`). -/
def hexDigitsLE : ℕ → ℕ → List ℕ
  | 0, _ => []
  | _ + 1, 0 => []
  | f + 1, n + 1 => (n + 1) % 16 :: hexDigitsLE f ((n + 1) / 16)

/-- Modelled from the spec: the fixed-width big-endian 128-bit byte
encoding of `x` (16 bytes, most significant first). -/
def specBE128 (x : ℕ) : List ℕ :=
  (List.range 16).map fun i => x / 256 ^ (15 - i) % 256

/-- Modelled from the spec: the leading 64 bits of a 256-bit chain state
(given as its 32-byte digest) read as an unsigned big-endian integer. -/
def specLeading64 (stateBytes : List ℕ) : ℕ :=
  (stateBytes.take 8).foldl (fun acc b => 256 * acc + b) 0

/-- Modelled from the spec: the reference two-point nonlinear mixer — mix
the two leading-64-bit values mod `P`, concatenate the 128-bit big-endian
encodings, and hash with SHA-256 (hex output). -/
def specChainMix (aBytes bBytes : List ℕ) : String :=
  let a := specLeading64 aBytes
  let b := specLeading64 bBytes
  let x := (2 * a + b) % arnoldP
  let y := (a + b) % arnoldP
  ⟨bytesToHexL (sha256Bytes (specBE128 x ++ specBE128 y))⟩

theorem nibsLE_length (k x : ℕ) : (nibsLE k x).length = k := by
  induction k generalizing x with
  | zero => rfl
  | succ k ih => simp [nibsLE, ih]

theorem nibsLE_zero (k : ℕ) : nibsLE k 0 = List.replicate k 0 := by
  induction k with
  | zero => rfl
  | succ k ih => simp [nibsLE, ih, List.replicate_succ]

/-- `hexDigitVal` inverts `nibbleChar` on nibbles. -/
theorem hexDigitVal_nibbleChar {d : ℕ} (hd : d < 16) :
    hexDigitVal (nibbleChar d) = d := by
  interval_cases d <;> decide

/-- Taking hex-character pairs commutes with taking bytes. -/
theorem bytesToHexL_take (bs : List ℕ) (k : ℕ) :
    (bytesToHexL bs).take (2 * k) = bytesToHexL (bs.take k) := by
  induction bs generalizing k with
  | nil => simp [bytesToHexL]
  | cons b bs ih =>
    cases k with
    | zero => rfl
    | succ k =>
      show (byteHex b ++ bytesToHexL bs).take (2 * (k + 1)) =
        byteHex b ++ bytesToHexL (bs.take k)
      simp only [byteHex, List.cons_append, List.nil_append]
      rw [show 2 * (k + 1) = (2 * k) + 1 + 1 by omega]
      rw [List.take_succ_cons, List.take_succ_cons, ih k]

/-- Folding the hex characters of a byte list accumulates the bytes base
256. -/
theorem hexValL_bytesToHexL (bs : List ℕ) (hb : ∀ x ∈ bs, x < 256) :
    ∀ acc : ℕ,
    (bytesToHexL bs).foldl (fun acc c => 16 * acc + hexDigitVal c) acc =
      bs.foldl (fun acc b => 256 * acc + b) acc := by
  induction bs with
  | nil => intro acc; rfl
  | cons b bs ih =>
    intro acc
    have hblt : b < 256 := hb b (List.mem_cons_self b bs)
    have hdiv : b / 16 < 16 := by omega
    have hmod : b % 16 < 16 := by omega
    show List.foldl _ acc (byteHex b ++ bytesToHexL bs) = _
    simp only [byteHex, List.cons_append, List.nil_append, List.foldl_cons]
    rw [hexDigitVal_nibbleChar hdiv, hexDigitVal_nibbleChar hmod,
      ih (fun x hx => hb x (List.mem_cons_of_mem b hx))]
    congr 1
    omega

/-- The code's `hexToBigInt` over the hex rendering of a 32-byte state is
the spec's leading-64-bits value. -/
theorem hexToBigInt_bytes (bs : List ℕ)
    (hb : ∀ x ∈ bs, x < 256) :
    hexToBigInt ⟨bytesToHexL bs⟩ = specLeading64 bs := by
  show hexValL ((bytesToHexL bs).take 16) = _
  rw [show (16 : ℕ) = 2 * 8 by norm_num, bytesToHexL_take]
  exact hexValL_bytesToHexL (bs.take 8)
    (fun x hx => hb x (List.take_subset 8 bs hx)) 0

theorem natToHexCore_eq (fuel n : ℕ) :
    natToHexCore fuel n = ((hexDigitsLE fuel n).map nibbleChar).reverse := by
  induction fuel generalizing n with
  | zero => rfl
  | succ f ih =>
    cases n with
    | zero => rfl
    | succ m =>
      show natToHexCore f ((m + 1) / 16) ++ [nibbleChar ((m + 1) % 16)] = _
      rw [ih]
      simp [hexDigitsLE]

/-- Padding the bare hex digits of `x < 16^k` with zeros yields exactly the
`k` little-endian nibbles (in reversed order on both sides). -/
theorem hexDigitsLE_pad : ∀ (k fuel x : ℕ), x < 16 ^ k → x ≤ fuel →
    hexDigitsLE fuel x ++
      List.replicate (k - (hexDigitsLE fuel x).length) 0 = nibsLE k x := by
  intro k
  induction k with
  | zero =>
    intro fuel x hx _
    interval_cases x
    cases fuel <;> rfl
  | succ k ih =>
    intro fuel x hx hf
    cases x with
    | zero =>
      cases fuel <;>
        simp [hexDigitsLE, nibsLE_zero]
    | succ m =>
      cases fuel with
      | zero => omega
      | succ f =>
        have hstep : hexDigitsLE (f + 1) (m + 1) =
            (m + 1) % 16 :: hexDigitsLE f ((m + 1) / 16) := rfl
        have hx' : (m + 1) / 16 < 16 ^ k := by
          rw [Nat.div_lt_iff_lt_mul (by norm_num)]
          calc m + 1 < 16 ^ (k + 1) := hx
          _ = 16 ^ k * 16 := by ring
        have hf' : (m + 1) / 16 ≤ f := by omega
        rw [hstep, List.cons_append, List.length_cons]
        rw [show k + 1 - ((hexDigitsLE f ((m + 1) / 16)).length + 1) =
          k - (hexDigitsLE f ((m + 1) / 16)).length by omega]
        rw [ih f ((m + 1) / 16) hx' hf']
        rfl

/-- The code's `toString(16).padStart(32, '0')` of `x < 16^32` is the
reversed nibble rendering. -/
theorem padStart32_natToHexL (x : ℕ) (hx : x < 16 ^ 32) :
    padStart32 (natToHexL x) = ((nibsLE 32 x).map nibbleChar).reverse := by
  by_cases h0 : x = 0
  · subst h0
    show List.replicate (32 - 1) '0' ++ ['0'] = _
    rw [nibsLE_zero, List.map_replicate, List.reverse_replicate]
    rw [show nibbleChar 0 = '0' from rfl]
    rw [← List.replicate_succ' 31 '0']
  · unfold padStart32 natToHexL
    rw [if_neg h0, natToHexCore_eq]
    rw [List.length_reverse, List.length_map]
    rw [← List.reverse_replicate, ← List.reverse_append]
    rw [show List.replicate (32 - (hexDigitsLE x x).length) '0' =
        (List.replicate (32 - (hexDigitsLE x x).length) 0).map nibbleChar by
      rw [List.map_replicate]
      exact congrArg (List.replicate _) (by decide)]
    rw [← List.map_append]
    rw [hexDigitsLE_pad 32 x x hx (le_refl x)]

/-- The spec's big-endian byte encoding is the reversed little-endian one. -/
theorem beBytes_eq_bytesLE_reverse :
    ∀ (k x : ℕ), ((List.range k).map fun i => x / 256 ^ (k - 1 - i) % 256) =
      (bytesLE k x).reverse := by
  intro k
  induction k with
  | zero => intro x; rfl
  | succ k ih =>
    intro x
    rw [List.range_succ, List.map_append, List.map_singleton]
    rw [show k + 1 - 1 - k = 0 by omega, pow_zero, Nat.div_one]
    have hfront : ((List.range k).map fun i => x / 256 ^ (k + 1 - 1 - i) % 256) =
        (List.range k).map fun i => (x / 256) / 256 ^ (k - 1 - i) % 256 := by
      apply List.map_congr_left
      intro i hi
      have hik : i < k := List.mem_range.mp hi
      rw [show k + 1 - 1 - i = (k - 1 - i) + 1 by omega, pow_succ,
        mul_comm, ← Nat.div_div_eq_div_mul]
    rw [hfront, ih (x / 256)]
    show _ = (x % 256 :: bytesLE k (x / 256)).reverse
    rw [List.reverse_cons]

theorem hexToBytesL_append_even :
    ∀ (A B : List Char), A.length % 2 = 0 →
      hexToBytesL (A ++ B) = hexToBytesL A ++ hexToBytesL B
  | [], B, _ => rfl
  | [_], _, h => by simp at h
  | c1 :: c2 :: A, B, h => by
    show (16 * hexDigitVal c1 + hexDigitVal c2) :: hexToBytesL (A ++ B) = _
    rw [hexToBytesL_append_even A B
      (by simp only [List.length_cons] at h; omega)]
    rfl

/-- Parsing back the reversed nibble rendering pairs them into the reversed
little-endian bytes. -/
theorem hexToBytesL_nibs : ∀ (k x : ℕ),
    hexToBytesL (((nibsLE (2 * k) x).map nibbleChar).reverse) =
      (bytesLE k x).reverse := by
  intro k
  induction k with
  | zero => intro x; rfl
  | succ k ih =>
    intro x
    rw [show 2 * (k + 1) = (2 * k) + 1 + 1 by omega]
    show hexToBytesL (((x % 16 :: nibsLE (2 * k + 1) (x / 16)).map
      nibbleChar).reverse) = _
    rw [show nibsLE (2 * k + 1) (x / 16) =
      (x / 16) % 16 :: nibsLE (2 * k) (x / 16 / 16) from rfl]
    rw [show x / 16 / 16 = x / 256 by omega]
    rw [List.map_cons, List.map_cons, List.reverse_cons, List.reverse_cons]
    rw [List.append_assoc]
    rw [hexToBytesL_append_even _ _ (by simp [nibsLE_length])]
    rw [ih (x / 256)]
    show _ ++ [16 * hexDigitVal (nibbleChar (x / 16 % 16)) +
      hexDigitVal (nibbleChar (x % 16))] = (x % 256 :: bytesLE k (x / 256)).reverse
    rw [hexDigitVal_nibbleChar (by omega), hexDigitVal_nibbleChar (by omega)]
    rw [List.reverse_cons]
    congr 2
    omega

/-- `P < 16^32 = 2^128`. -/
theorem arnoldP_lt : arnoldP < 16 ^ 32 := by norm_num [arnoldP]

/-- **C8.** The sealer's `arnoldTransform`, applied to the hex renderings of
two 32-byte chain states, computes exactly the spec's reference mixer: the
leading 64 bits of each state are mixed as `x = (2a+b) mod P`,
`y = (a+b) mod P` for `P = 2^128 - 159`, the fixed-width 128-bit big-endian
encodings of `x` and `y` are concatenated, and the result is SHA-256
hashed. -/
theorem arnold_matches_spec (sa sb : List ℕ)
    (_hla : sa.length = 32) (_hlb : sb.length = 32)
    (hba : ∀ x ∈ sa, x < 256) (hbb : ∀ x ∈ sb, x < 256) :
    arnoldTransform ⟨bytesToHexL sa⟩ ⟨bytesToHexL sb⟩ = specChainMix sa sb := by
  simp only [arnoldTransform, specChainMix]
  rw [hexToBigInt_bytes sa hba, hexToBigInt_bytes sb hbb]
  have hx : (2 * specLeading64 sa + specLeading64 sb) % arnoldP < 16 ^ 32 :=
    lt_trans (Nat.mod_lt _ (by norm_num [arnoldP])) arnoldP_lt
  have hy : (specLeading64 sa + specLeading64 sb) % arnoldP < 16 ^ 32 :=
    lt_trans (Nat.mod_lt _ (by norm_num [arnoldP])) arnoldP_lt
  rw [padStart32_natToHexL _ hx, padStart32_natToHexL _ hy]
  rw [hexToBytesL_append_even _ _ (by simp [nibsLE_length])]
  rw [show (32 : ℕ) = 2 * 16 by norm_num, hexToBytesL_nibs, hexToBytesL_nibs]
  have hbe : ∀ z : ℕ, specBE128 z = (bytesLE 16 z).reverse := by
    intro z
    rw [specBE128, show (15 : ℕ) = 16 - 1 from rfl]
    exact beBytes_eq_bytesLE_reverse 16 z
  rw [hbe, hbe]

/-- Witness for C8 at two concrete 32-byte states (all zeros and
`0x01` bytes). -/
theorem arnold_matches_spec_witness :
    ((List.replicate 32 0).length = 32 ∧ (List.replicate 32 1).length = 32 ∧
      (∀ x ∈ List.replicate 32 0, x < 256) ∧
      (∀ x ∈ List.replicate 32 1, x < 256)) ∧
    arnoldTransform ⟨bytesToHexL (List.replicate 32 0)⟩
        ⟨bytesToHexL (List.replicate 32 1)⟩ =
      specChainMix (List.replicate 32 0) (List.replicate 32 1) :=
  ⟨by decide,
   arnold_matches_spec (List.replicate 32 0) (List.replicate 32 1)
     (by decide) (by decide) (by decide) (by decide)⟩

end ActuaryBot
